import Mathlib

/-!
Verification of the PDF redaction core (redactor.py, signature_detector_yolo.py,
main.py) against its design document.

The embedding is shallow: coordinates are rationals (the Python floats are used
as exact decimal values in all the properties considered here), pages are
records holding the fields the code reads (rotation, displayed rect, mediabox),
and the PyMuPDF / model-inference collaborators appear as oracle parameters
(fallible steps are `Except` values).
-/

/-- A width/height pair, the projection of a fitz rectangle that the code
reads from `page.rect` and `page.mediabox` (only `.width` and `.height`
are ever accessed). -/
structure Size where
  width : ℚ
  height : ℚ
deriving DecidableEq, Repr

/-- A fitz.Rect: two corner points, `(x0, y0)` top-left and `(x1, y1)`
bottom-right. -/
structure Rect where
  x0 : ℚ
  y0 : ℚ
  x1 : ℚ
  y1 : ℚ
deriving DecidableEq, Repr

/-- fitz.Rect.width. -/
def Rect.width (r : Rect) : ℚ := r.x1 - r.x0

/-- fitz.Rect.height. -/
def Rect.height (r : Rect) : ℚ := r.y1 - r.y0

/-- redactor.py, `transform_rect_for_rotation(rect, rotation, mediabox)`:
maps a rectangle in displayed (visual) coordinates to internal coordinates,
given the page rotation in degrees and the mediabox (internal) size. -/
def transform_rect_for_rotation (rect : Rect) (rotation : Int) (mediabox : Size) : Rect :=
  if rotation = 0 then rect
  else
    let x := rect.x0
    let y := rect.y0
    let x2 := rect.x1
    let y2 := rect.y1
    let w := x2 - x
    let h := y2 - y
    if rotation = 90 then
      let new_x := mediabox.height - y - h
      let new_y := x
      let new_w := h
      let new_h := w
      ⟨new_x, new_y, new_x + new_w, new_y + new_h⟩
    else if rotation = 180 then
      let new_x := mediabox.width - x - w
      let new_y := mediabox.height - y - h
      ⟨new_x, new_y, new_x + w, new_y + h⟩
    else if rotation = 270 then
      let new_x := mediabox.width - y - h
      let new_y := x
      let new_w := h
      let new_h := w
      ⟨new_x, new_y, new_x + new_w, new_y + new_h⟩
    else
      rect

/-- C1: on a page with rotation 90 and internal size W×H, a displayed
rectangle with top-left (x, y), width w, height h is mapped to the rectangle
with top-left (H - y - h, x), width h and height w; in particular
{x:100, y:200, width:150, height:20} with internal size 612×792 maps to
{x:572, y:100, width:20, height:150}. -/
theorem transform_rot90_formula :
    (∀ x y w h W H : ℚ,
      transform_rect_for_rotation ⟨x, y, x + w, y + h⟩ 90 ⟨W, H⟩ =
        ⟨H - y - h, x, (H - y - h) + h, x + w⟩) ∧
    transform_rect_for_rotation ⟨100, 200, 100 + 150, 200 + 20⟩ 90 ⟨612, 792⟩ =
      ⟨572, 100, 572 + 20, 100 + 150⟩ := by
  constructor
  · intro x y w h W H
    simp only [transform_rect_for_rotation]
    norm_num [Rect.mk.injEq]
  · norm_num [transform_rect_for_rotation, Rect.mk.injEq]

/-- C10: the transform preserves area for every rectangle and every rotation
value (dimensions are kept or swapped, never scaled). -/
theorem transform_preserves_area (rect : Rect) (rotation : Int) (mediabox : Size) :
    (transform_rect_for_rotation rect rotation mediabox).width *
      (transform_rect_for_rotation rect rotation mediabox).height =
    rect.width * rect.height := by
  unfold transform_rect_for_rotation Rect.width Rect.height
  split_ifs <;> simp <;> ring

/-- C2 counterexample: transforming {x:100, y:200, width:150, height:20} for
rotation 90 on a 612×792 mediabox and then applying the rotation-270 transform
(the inverse rotation) does not recover the original rectangle — with either
the same mediabox or the swapped one. -/
theorem transform_roundtrip_90_fails :
    transform_rect_for_rotation
        (transform_rect_for_rotation ⟨100, 200, 250, 220⟩ 90 ⟨612, 792⟩)
        270 ⟨612, 792⟩ ≠ ⟨100, 200, 250, 220⟩ ∧
    transform_rect_for_rotation
        (transform_rect_for_rotation ⟨100, 200, 250, 220⟩ 90 ⟨612, 792⟩)
        270 ⟨792, 612⟩ ≠ ⟨100, 200, 250, 220⟩ := by
  constructor <;> norm_num [transform_rect_for_rotation, Rect.mk.injEq]

/-- C2 (amended): for rotation 0 and rotation 180 the transform is its own
inverse, so the round trip recovers the original rectangle exactly; for
rotations 90 and 270 the round trip does not recover the original in
general. -/
theorem transform_roundtrip_0_180 (rect : Rect) (mediabox : Size) (rotation : Int)
    (h : rotation = 0 ∨ rotation = 180) :
    transform_rect_for_rotation
      (transform_rect_for_rotation rect rotation mediabox) rotation mediabox = rect := by
  rcases h with h | h <;> subst h
  · simp [transform_rect_for_rotation]
  · simp only [transform_rect_for_rotation]
    norm_num [Rect.mk.injEq]

/-- Witness for C2's amended theorem at rotation 180 on a concrete
rectangle. -/
theorem transform_roundtrip_0_180_witness :
    transform_rect_for_rotation
      (transform_rect_for_rotation ⟨100, 200, 250, 220⟩ 180 ⟨612, 792⟩)
      180 ⟨612, 792⟩ = ⟨100, 200, 250, 220⟩ :=
  transform_roundtrip_0_180 ⟨100, 200, 250, 220⟩ ⟨612, 792⟩ 180 (Or.inr rfl)

/-- A redaction / signature coordinate record, as consumed by `redact_pdf`,
`redact_signatures_from_bytes` and the dedup helpers: zero-based page index,
top-left corner and size in displayed coordinates. The optional `text`,
`category` and `confidence` entries are informational only (logging) and are
not modelled. -/
structure Redaction where
  pageIndex : Nat
  x : ℚ
  y : ℚ
  width : ℚ
  height : ℚ
deriving DecidableEq, Repr

/-- The per-page data the redaction code reads: `page.rotation`,
`page.rect` (displayed size) and `page.mediabox` (internal size). -/
structure Page where
  rotation : Int
  rect : Size
  mediabox : Size
deriving DecidableEq, Repr

/-- `fitz.Rect(x, y, x + w, y + h)` built from a record's displayed
coordinates. -/
def displayedRect (r : Redaction) : Rect :=
  ⟨r.x, r.y, r.x + r.width, r.y + r.height⟩

/-- The internal-coordinate rectangle both redaction paths pass to PyMuPDF:
the displayed rectangle pushed through `transform_rect_for_rotation`. -/
def internalRect (page : Page) (r : Redaction) : Rect :=
  transform_rect_for_rotation (displayedRect r) page.rotation page.mediabox

/-- One step of building `redactions_by_page` / `signatures_by_page`: insert a
record into the group of its page index, appending a fresh group at the end
when the key is new (Python dict insertion-order semantics). -/
def addToGroup (acc : List (Nat × List Redaction)) (r : Redaction) :
    List (Nat × List Redaction) :=
  match acc with
  | [] => [(r.pageIndex, [r])]
  | (k, l) :: rest =>
    if k = r.pageIndex then (k, l ++ [r]) :: rest
    else (k, l) :: addToGroup rest r

/-- The `redactions_by_page` grouping loop of `redact_pdf` (identical in
`redact_signatures_from_bytes`). -/
def groupByPage (rs : List Redaction) : List (Nat × List Redaction) :=
  rs.foldl addToGroup []

/-- Inner per-page loop of `redact_pdf`: skip a record whose width or height
exceeds 50% of the displayed page size, otherwise add a redaction annot at
the transformed rectangle. Returns the page's annotations in order. -/
def redactPageAnnots (page_idx : Nat) (page : Page) : List Redaction → List (Nat × Rect)
  | [] => []
  | r :: rs =>
    if r.width > page.rect.width * (1 / 2) ∨ r.height > page.rect.height * (1 / 2) then
      redactPageAnnots page_idx page rs
    else
      (page_idx, internalRect page r) :: redactPageAnnots page_idx page rs

/-- Inner per-page loop of `redact_signatures_from_bytes`: draw a white cover
rectangle at the transformed position for every record, with no size bound. -/
def coverPageAnnots (page_idx : Nat) (page : Page) : List Redaction → List (Nat × Rect)
  | [] => []
  | r :: rs => (page_idx, internalRect page r) :: coverPageAnnots page_idx page rs

/-- Outer loop of `redact_pdf` over the page groups: a group whose page index
is out of range (`page_idx >= len(doc)`) is skipped with a warning. -/
def redactGroups (doc : List Page) : List (Nat × List Redaction) → List (Nat × Rect)
  | [] => []
  | g :: gs =>
    match doc[g.1]? with
    | none => redactGroups doc gs
    | some page => redactPageAnnots g.1 page g.2 ++ redactGroups doc gs

/-- Outer loop of `redact_signatures_from_bytes` over the page groups, with
the same out-of-range skip. -/
def coverGroups (doc : List Page) : List (Nat × List Redaction) → List (Nat × Rect)
  | [] => []
  | g :: gs =>
    match doc[g.1]? with
    | none => coverGroups doc gs
    | some page => coverPageAnnots g.1 page g.2 ++ coverGroups doc gs

/-- The full sequence of redaction annotations `redact_pdf` registers on the
open document before the bulk apply pass. -/
def redact_pdf_annots (doc : List Page) (redactions : List Redaction) : List (Nat × Rect) :=
  redactGroups doc (groupByPage redactions)

/-- The full sequence of white cover rectangles `redact_signatures_from_bytes`
draws on the open document. -/
def redact_signatures_annots (doc : List Page) (signatures : List Redaction) :
    List (Nat × Rect) :=
  coverGroups doc (groupByPage signatures)

/-- Helper: the per-page loop of `redact_pdf` computes the same annotations on
a record list and on that list with its oversized records filtered out. -/
theorem redactPageAnnots_filter_oversized (page_idx : Nat) (page : Page)
    (rs : List Redaction) :
    redactPageAnnots page_idx page rs =
      redactPageAnnots page_idx page (rs.filter fun r =>
        !decide (r.width > page.rect.width * (1 / 2) ∨
          r.height > page.rect.height * (1 / 2))) := by
  induction rs with
  | nil => rfl
  | cons r rs ih =>
    simp only [redactPageAnnots, List.filter_cons]
    by_cases hc : r.width > page.rect.width * (1 / 2) ∨ r.height > page.rect.height * (1 / 2)
    · rw [if_pos hc, if_neg (by rw [decide_eq_true hc]; simp)]
      exact ih
    · rw [if_neg hc, if_pos (by rw [decide_eq_false hc]; simp)]
      simp only [redactPageAnnots]
      rw [if_neg hc, ih]

/-- Helper: the per-page loop of `redact_signatures_from_bytes` covers every
record, in order, with its transformed rectangle. -/
theorem coverPageAnnots_eq_map (page_idx : Nat) (page : Page) (rs : List Redaction) :
    coverPageAnnots page_idx page rs = rs.map fun r => (page_idx, internalRect page r) := by
  induction rs with
  | nil => rfl
  | cons r rs ih => simp [coverPageAnnots, ih]

/-- C3: a record whose width or height exceeds 50% of the displayed page size
is skipped by `redact_pdf` (it contributes no annotation, and the remaining
records are processed exactly as if it were absent), while
`redact_signatures_from_bytes` covers the same record unmodified — its cover
loop applies no size bound and honors every record. -/
theorem oversized_skip_asymmetry :
    (∀ (page_idx : Nat) (page : Page) (rs : List Redaction),
      redactPageAnnots page_idx page rs =
        redactPageAnnots page_idx page (rs.filter fun r =>
          !decide (r.width > page.rect.width * (1 / 2) ∨
            r.height > page.rect.height * (1 / 2)))) ∧
    (∀ (page_idx : Nat) (page : Page) (rs : List Redaction),
      coverPageAnnots page_idx page rs =
        rs.map fun r => (page_idx, internalRect page r)) ∧
    (∀ (doc : List Page) (r : Redaction) (page : Page),
      doc[r.pageIndex]? = some page →
      (r.width > page.rect.width * (1 / 2) ∨ r.height > page.rect.height * (1 / 2)) →
      redact_pdf_annots doc [r] = [] ∧
      redact_signatures_annots doc [r] = [(r.pageIndex, internalRect page r)]) := by
  refine ⟨redactPageAnnots_filter_oversized, coverPageAnnots_eq_map, ?_⟩
  intro doc r page hpage hbig
  have hgrp : groupByPage [r] = [(r.pageIndex, [r])] := rfl
  constructor
  · rw [redact_pdf_annots, hgrp]
    simp only [redactGroups, hpage, redactPageAnnots]
    rw [if_pos hbig]
    rfl
  · rw [redact_signatures_annots, hgrp]
    simp only [coverGroups, hpage, coverPageAnnots]
    rfl

/-- Witness for C3 at a concrete document and oversized record: a 400-wide
record on a 612×792 page (400 > 612/2) yields no redaction annotation but is
covered unmodified by the signature path. -/
theorem oversized_skip_asymmetry_witness :
    redact_pdf_annots [⟨0, ⟨612, 792⟩, ⟨612, 792⟩⟩] [⟨0, 10, 10, 400, 20⟩] = [] ∧
    redact_signatures_annots [⟨0, ⟨612, 792⟩, ⟨612, 792⟩⟩] [⟨0, 10, 10, 400, 20⟩] =
      [(0, internalRect ⟨0, ⟨612, 792⟩, ⟨612, 792⟩⟩ ⟨0, 10, 10, 400, 20⟩)] :=
  oversized_skip_asymmetry.2.2 [⟨0, ⟨612, 792⟩, ⟨612, 792⟩⟩] ⟨0, 10, 10, 400, 20⟩
    ⟨0, ⟨612, 792⟩, ⟨612, 792⟩⟩ rfl (by norm_num)

/-- Helper: inserting a record whose page index satisfies `q` commutes with
filtering the page groups by `q` on the key. -/
theorem addToGroup_filter_pos (q : Nat → Bool) (r : Redaction)
    (hq : q r.pageIndex = true) :
    ∀ acc : List (Nat × List Redaction),
      addToGroup (acc.filter fun g => q g.1) r =
        (addToGroup acc r).filter fun g => q g.1
  | [] => by simp [addToGroup, hq]
  | (k, l) :: rest => by
    by_cases hk : k = r.pageIndex
    · subst hk
      simp [addToGroup, List.filter_cons, hq]
    · by_cases hqk : q k = true
      · simp [addToGroup, List.filter_cons, hk, hqk, addToGroup_filter_pos q r hq rest]
      · simp only [Bool.not_eq_true] at hqk
        simp [addToGroup, List.filter_cons, hk, hqk, addToGroup_filter_pos q r hq rest]

/-- Helper: inserting a record whose page index fails `q` leaves the
`q`-filtered page groups unchanged. -/
theorem addToGroup_filter_neg (q : Nat → Bool) (r : Redaction)
    (hq : q r.pageIndex = false) :
    ∀ acc : List (Nat × List Redaction),
      (acc.filter fun g => q g.1) = (addToGroup acc r).filter fun g => q g.1
  | [] => by simp [addToGroup, hq]
  | (k, l) :: rest => by
    by_cases hk : k = r.pageIndex
    · subst hk
      simp [addToGroup, List.filter_cons, hq]
    · by_cases hqk : q k = true
      · simp [addToGroup, List.filter_cons, hk, hqk, ← addToGroup_filter_neg q r hq rest]
      · simp only [Bool.not_eq_true] at hqk
        simp [addToGroup, List.filter_cons, hk, hqk, ← addToGroup_filter_neg q r hq rest]

/-- Helper: the grouping fold commutes with filtering by a predicate on the
page index. -/
theorem foldl_addToGroup_filter (q : Nat → Bool) :
    ∀ (rs : List Redaction) (acc : List (Nat × List Redaction)),
      List.foldl addToGroup (acc.filter fun g => q g.1)
          (rs.filter fun r => q r.pageIndex) =
        (List.foldl addToGroup acc rs).filter fun g => q g.1
  | [], _ => rfl
  | r :: rs, acc => by
    rw [List.filter_cons]
    by_cases hq : q r.pageIndex = true
    · rw [if_pos hq]
      simp only [List.foldl_cons]
      rw [addToGroup_filter_pos q r hq acc]
      exact foldl_addToGroup_filter q rs (addToGroup acc r)
    · simp only [Bool.not_eq_true] at hq
      rw [if_neg (by rw [hq]; simp)]
      simp only [List.foldl_cons]
      rw [addToGroup_filter_neg q r hq acc]
      exact foldl_addToGroup_filter q rs (addToGroup acc r)

/-- Helper: `groupByPage` commutes with filtering by a predicate on the page
index. -/
theorem groupByPage_filter_key (q : Nat → Bool) (rs : List Redaction) :
    groupByPage (rs.filter fun r => q r.pageIndex) =
      (groupByPage rs).filter fun g => q g.1 :=
  foldl_addToGroup_filter q rs []

/-- Helper: dropping the out-of-range page groups does not change the
annotations `redact_pdf` registers. -/
theorem redactGroups_filter_inRange (doc : List Page) :
    ∀ gs : List (Nat × List Redaction),
      redactGroups doc (gs.filter fun g => decide (g.1 < doc.length)) =
        redactGroups doc gs
  | [] => rfl
  | g :: gs => by
    rw [List.filter_cons]
    by_cases hg : g.1 < doc.length
    · rw [if_pos (decide_eq_true hg)]
      simp only [redactGroups]
      rw [redactGroups_filter_inRange doc gs]
    · rw [if_neg (by rw [decide_eq_false hg]; simp)]
      have hnone : doc[g.1]? = none := List.getElem?_eq_none (by omega)
      simp only [redactGroups, hnone]
      exact redactGroups_filter_inRange doc gs

/-- Helper: dropping the out-of-range page groups does not change the covers
`redact_signatures_from_bytes` draws. -/
theorem coverGroups_filter_inRange (doc : List Page) :
    ∀ gs : List (Nat × List Redaction),
      coverGroups doc (gs.filter fun g => decide (g.1 < doc.length)) =
        coverGroups doc gs
  | [] => rfl
  | g :: gs => by
    rw [List.filter_cons]
    by_cases hg : g.1 < doc.length
    · rw [if_pos (decide_eq_true hg)]
      simp only [coverGroups]
      rw [coverGroups_filter_inRange doc gs]
    · rw [if_neg (by rw [decide_eq_false hg]; simp)]
      have hnone : doc[g.1]? = none := List.getElem?_eq_none (by omega)
      simp only [coverGroups, hnone]
      exact coverGroups_filter_inRange doc gs

/-- C5: a record whose page index is out of range is skipped by both
`redact_pdf` and `redact_signatures_from_bytes`: each function produces
exactly the annotations of the input with every out-of-range record removed,
so all remaining records and pages are still processed and the job does not
fail. -/
theorem out_of_range_page_skipped :
    (∀ (doc : List Page) (rs : List Redaction),
      redact_pdf_annots doc rs =
        redact_pdf_annots doc (rs.filter fun r => decide (r.pageIndex < doc.length))) ∧
    (∀ (doc : List Page) (rs : List Redaction),
      redact_signatures_annots doc rs =
        redact_signatures_annots doc
          (rs.filter fun r => decide (r.pageIndex < doc.length))) := by
  constructor <;> intro doc rs
  · rw [redact_pdf_annots, redact_pdf_annots,
      groupByPage_filter_key (fun i => decide (i < doc.length)) rs,
      redactGroups_filter_inRange]
  · rw [redact_signatures_annots, redact_signatures_annots,
      groupByPage_filter_key (fun i => decide (i < doc.length)) rs,
      coverGroups_filter_inRange]

/-- signature_detector_yolo.py, `_calculate_iou(box1, box2)`: axis-aligned
Intersection over Union of two records, 0 when the overlap rectangle is
degenerate (disjoint, or touching only at an edge or corner) and 0 when the
union area is non-positive. -/
def _calculate_iou (box1 box2 : Redaction) : ℚ :=
  let x1_1 := box1.x
  let y1_1 := box1.y
  let x2_1 := x1_1 + box1.width
  let y2_1 := y1_1 + box1.height
  let x1_2 := box2.x
  let y1_2 := box2.y
  let x2_2 := x1_2 + box2.width
  let y2_2 := y1_2 + box2.height
  let xi1 := max x1_1 x1_2
  let yi1 := max y1_1 y1_2
  let xi2 := min x2_1 x2_2
  let yi2 := min y2_1 y2_2
  if xi2 ≤ xi1 ∨ yi2 ≤ yi1 then 0
  else
    let intersection := (xi2 - xi1) * (yi2 - yi1)
    let area1 := box1.width * box1.height
    let area2 := box2.width * box2.height
    let union := area1 + area2 - intersection
    if union ≤ 0 then 0
    else intersection / union

/-- signature_detector_yolo.py, `_is_duplicate(new_sig, existing_signatures,
detected_signatures, overlap_threshold=0.5)`: linear scan over the
concatenation of both prior sets, skipping records on a different page, and
reporting a duplicate as soon as one pairwise IoU strictly exceeds the
threshold (default 0.5). -/
def _is_duplicate (new_sig : Redaction)
    (existing_signatures detected_signatures : List Redaction)
    (overlap_threshold : ℚ := 1 / 2) : Bool :=
  (existing_signatures ++ detected_signatures).any fun existing =>
    if existing.pageIndex ≠ new_sig.pageIndex then false
    else decide (_calculate_iou new_sig existing > overlap_threshold)

/-- C4: `_is_duplicate` returns true iff some record among
`existing_signatures ++ detected_signatures` has the candidate's page index
and an IoU with the candidate strictly above the threshold; a record on a
different page never makes the candidate a duplicate. -/
theorem is_duplicate_iff :
    (∀ (c : Redaction) (ex det : List Redaction) (θ : ℚ),
      _is_duplicate c ex det θ = true ↔
        ∃ b ∈ ex ++ det, b.pageIndex = c.pageIndex ∧ _calculate_iou c b > θ) ∧
    (∀ (c : Redaction) (ex det : List Redaction) (θ : ℚ),
      (∀ b ∈ ex ++ det, b.pageIndex ≠ c.pageIndex) →
        _is_duplicate c ex det θ = false) := by
  have hiff : ∀ (c : Redaction) (ex det : List Redaction) (θ : ℚ),
      _is_duplicate c ex det θ = true ↔
        ∃ b ∈ ex ++ det, b.pageIndex = c.pageIndex ∧ _calculate_iou c b > θ := by
    intro c ex det θ
    simp only [_is_duplicate, List.any_eq_true]
    constructor
    · rintro ⟨b, hb, hcond⟩
      by_cases hpg : b.pageIndex ≠ c.pageIndex
      · rw [if_pos hpg] at hcond
        exact absurd hcond (by simp)
      · push_neg at hpg
        rw [if_neg (by simp [hpg])] at hcond
        exact ⟨b, hb, hpg, of_decide_eq_true hcond⟩
    · rintro ⟨b, hb, hpg, hgt⟩
      refine ⟨b, hb, ?_⟩
      rw [if_neg (by simp [hpg])]
      exact decide_eq_true hgt
  refine ⟨hiff, ?_⟩
  intro c ex det θ hall
  cases hdup : _is_duplicate c ex det θ with
  | false => rfl
  | true =>
    obtain ⟨b, hb, hpg, _⟩ := (hiff c ex det θ).mp hdup
    exact absurd hpg (hall b hb)

/-- Witness for C4's different-page conjunct: a record on page 1 never makes a
page-0 candidate a duplicate, even at identical coordinates. -/
theorem is_duplicate_iff_witness :
    _is_duplicate ⟨0, 0, 0, 10, 10⟩ [⟨1, 0, 0, 10, 10⟩] [] (1 / 2) = false :=
  is_duplicate_iff.2 ⟨0, 0, 0, 10, 10⟩ [⟨1, 0, 0, 10, 10⟩] [] (1 / 2)
    (by intro b hb; simp at hb; subst hb; decide)

/-- signature_detector_yolo.py, `detect_signatures_yolo` box post-processing:
divide the detector's image-pixel coordinates by the zoom factor, pad by 5%
of the box's own width/height on each side (clamping the top-left at 0), then
shrink any edge that overflows the displayed page bounds. -/
def postprocessBox (zoom : ℚ) (page_rect : Size) (page_num : Nat)
    (x1_img y1_img x2_img y2_img : ℚ) : Redaction :=
  let x1 := x1_img / zoom
  let y1 := y1_img / zoom
  let x2 := x2_img / zoom
  let y2 := y2_img / zoom
  let width := x2 - x1
  let height := y2 - y1
  let padding_x := width * (5 / 100)
  let padding_y := height * (5 / 100)
  let x1 := max 0 (x1 - padding_x)
  let y1 := max 0 (y1 - padding_y)
  let width := width + 2 * padding_x
  let height := height + 2 * padding_y
  let width := if x1 + width > page_rect.width then page_rect.width - x1 else width
  let height := if y1 + height > page_rect.height then page_rect.height - y1 else height
  ⟨page_num, x1, y1, width, height⟩

/-- C7: for every detector box lying within the rendered page image, the
post-processed record satisfies x ≥ 0, y ≥ 0, x + width ≤ displayed page
width and y + height ≤ displayed page height; in particular a box with x = 0
and width 50 on a 200-wide page (zoom 2) keeps its final x at 0 or above and
its x + width at 200 or below. -/
theorem postprocess_box_within_bounds :
    (∀ (zoom : ℚ) (page_rect : Size) (page_num : Nat) (x1_img y1_img x2_img y2_img : ℚ),
      0 < zoom →
      0 ≤ x1_img → x1_img ≤ x2_img → x2_img ≤ zoom * page_rect.width →
      0 ≤ y1_img → y1_img ≤ y2_img → y2_img ≤ zoom * page_rect.height →
      0 ≤ (postprocessBox zoom page_rect page_num x1_img y1_img x2_img y2_img).x ∧
      0 ≤ (postprocessBox zoom page_rect page_num x1_img y1_img x2_img y2_img).y ∧
      (postprocessBox zoom page_rect page_num x1_img y1_img x2_img y2_img).x +
          (postprocessBox zoom page_rect page_num x1_img y1_img x2_img y2_img).width ≤
        page_rect.width ∧
      (postprocessBox zoom page_rect page_num x1_img y1_img x2_img y2_img).y +
          (postprocessBox zoom page_rect page_num x1_img y1_img x2_img y2_img).height ≤
        page_rect.height) ∧
    (0 ≤ (postprocessBox 2 ⟨200, 300⟩ 0 0 100 100 160).x ∧
      (postprocessBox 2 ⟨200, 300⟩ 0 0 100 100 160).x +
          (postprocessBox 2 ⟨200, 300⟩ 0 0 100 100 160).width ≤ 200) := by
  constructor
  · intro zoom page_rect page_num x1_img y1_img x2_img y2_img hz hx0 hx12 hxW hy0 hy12 hyH
    simp only [postprocessBox]
    split_ifs <;>
      refine ⟨le_max_left _ _, le_max_left _ _, by linarith, by linarith⟩
  · norm_num [postprocessBox]

/-- Witness for C7 at a concrete in-image box: zoom 2, page 200×300, image
box (20, 100)–(120, 160). -/
theorem postprocess_box_within_bounds_witness :
    0 ≤ (postprocessBox 2 ⟨200, 300⟩ 0 20 100 120 160).x ∧
    0 ≤ (postprocessBox 2 ⟨200, 300⟩ 0 20 100 120 160).y ∧
    (postprocessBox 2 ⟨200, 300⟩ 0 20 100 120 160).x +
        (postprocessBox 2 ⟨200, 300⟩ 0 20 100 120 160).width ≤ 200 ∧
    (postprocessBox 2 ⟨200, 300⟩ 0 20 100 120 160).y +
        (postprocessBox 2 ⟨200, 300⟩ 0 20 100 120 160).height ≤ 300 :=
  postprocess_box_within_bounds.1 2 ⟨200, 300⟩ 0 20 100 120 160
    (by norm_num) (by norm_num) (by norm_num) (by norm_num)
    (by norm_num) (by norm_num) (by norm_num)

/-- Error-handling skeleton of `redact_pdf`: the whole body runs inside one
try block; the fallible collaborator steps (open the PDF, load the
redactions JSON, bulk-apply the registered annotations, save the output) are
oracle parameters, and the first one that raises makes the function return
False, while completing the sequence returns True. The function is total:
nothing propagates to the caller. -/
def redact_pdf_run (openDoc : Except String (List Page))
    (loadRedactions : Except String (List Redaction))
    (applyRedactions : List Page → List (Nat × Rect) → Except String Nat)
    (saveDoc : Except String Unit) : Bool :=
  match openDoc with
  | Except.error _ => false
  | Except.ok doc =>
    match loadRedactions with
    | Except.error _ => false
    | Except.ok redactions =>
      match applyRedactions doc (redact_pdf_annots doc redactions) with
      | Except.error _ => false
      | Except.ok _ =>
        match saveDoc with
        | Except.error _ => false
        | Except.ok _ => true

/-- C6: `redact_pdf` returns True exactly when the open/parse/annotate/apply/
save sequence completes, and returns False whenever any step of that sequence
raises; the result is a plain boolean, with no partial-success value. -/
theorem redact_pdf_success_iff :
    ∀ (openDoc : Except String (List Page))
      (loadRedactions : Except String (List Redaction))
      (applyRedactions : List Page → List (Nat × Rect) → Except String Nat)
      (saveDoc : Except String Unit),
      (redact_pdf_run openDoc loadRedactions applyRedactions saveDoc = true ↔
        ∃ doc redactions,
          openDoc = Except.ok doc ∧
          loadRedactions = Except.ok redactions ∧
          (∃ n, applyRedactions doc (redact_pdf_annots doc redactions) = Except.ok n) ∧
          saveDoc = Except.ok ()) ∧
      (redact_pdf_run openDoc loadRedactions applyRedactions saveDoc = false ↔
        ¬ ∃ doc redactions,
          openDoc = Except.ok doc ∧
          loadRedactions = Except.ok redactions ∧
          (∃ n, applyRedactions doc (redact_pdf_annots doc redactions) = Except.ok n) ∧
          saveDoc = Except.ok ()) := by
  intro o l a s
  have hiff : redact_pdf_run o l a s = true ↔
      ∃ doc redactions,
        o = Except.ok doc ∧
        l = Except.ok redactions ∧
        (∃ n, a doc (redact_pdf_annots doc redactions) = Except.ok n) ∧
        s = Except.ok () := by
    cases o with
    | error e => simp [redact_pdf_run]
    | ok doc =>
      cases l with
      | error e => simp [redact_pdf_run]
      | ok redactions =>
        cases ha : a doc (redact_pdf_annots doc redactions) with
        | error e => simp [redact_pdf_run, ha]
        | ok n =>
          cases s with
          | error e => simp [redact_pdf_run, ha]
          | ok u => simp [redact_pdf_run, ha]
  refine ⟨hiff, ?_⟩
  rw [← hiff]
  cases redact_pdf_run o l a s <;> simp

/-- main.py `/redact` endpoint outcome: a returned file (its bytes, and the
X-Redactions-Applied header value when that header is set) or an HTTP error
status. -/
inductive EndpointResult where
  | file (bytes : List Nat) (redactionsApplied : Option Nat)
  | httpError (status : Nat)
deriving DecidableEq, Repr

/-- main.py, `redact_pdf_endpoint` after the uploaded file is validated and
the redactions JSON is parsed into a list: an empty list short-circuits and
returns the uploaded bytes with X-Redactions-Applied: 0 — the redaction job
(the oracle `runJob`, which is what opens the document) is never invoked;
otherwise the job runs and a failure becomes HTTP 500. -/
def redact_pdf_endpoint (content : List Nat) (redactions_data : List Redaction)
    (runJob : List Nat → List Redaction → Option (List Nat)) : EndpointResult :=
  if redactions_data.length = 0 then EndpointResult.file content (some 0)
  else
    match runJob content redactions_data with
    | none => EndpointResult.httpError 500
    | some out => EndpointResult.file out none

/-- The saved document `redact_pdf` produces, pairing each page of the input
document with the internal rectangles the bulk `apply_redactions` pass
removes on it (PyMuPDF collaborator semantics: a page with no pending
region is left unchanged, so an empty list means the page's text and image
content is untouched). -/
def redact_pdf_saved (doc : List Page) (redactions : List Redaction) :
    List (Page × List Rect) :=
  doc.enum.map fun p =>
    (p.2, (redact_pdf_annots doc redactions).filterMap fun a =>
      if a.1 = p.1 then some a.2 else none)

/-- C8: redacting with an empty rectangle list is a pass-through: the /redact
endpoint returns the uploaded bytes as-is (X-Redactions-Applied: 0) without
ever invoking the job that opens the document, and `redact_pdf` on an empty
redaction list applies no removal region to any page of the saved output. -/
theorem empty_redactions_passthrough :
    (∀ (content : List Nat) (runJob : List Nat → List Redaction → Option (List Nat)),
      redact_pdf_endpoint content [] runJob = EndpointResult.file content (some 0)) ∧
    (∀ doc : List Page,
      redact_pdf_saved doc [] = doc.enum.map fun p => (p.2, [])) := by
  constructor
  · intro content runJob
    rfl
  · intro doc
    have h : redact_pdf_annots doc [] = [] := rfl
    simp [redact_pdf_saved, h]

/-- Sequencing of the per-page loop of `detect_signatures_yolo`: pages are
processed in order, each contributing its accepted boxes (rescaling, padding,
clipping and dedup included in the page's oracle result); an exception raised
on any page aborts the whole loop with that error. -/
def runPages : List (Except String (List Redaction)) → Except String (List Redaction)
  | [] => Except.ok []
  | p :: ps =>
    match p with
    | Except.error e => Except.error e
    | Except.ok sigs =>
      match runPages ps with
      | Except.error e => Except.error e
      | Except.ok rest => Except.ok (sigs ++ rest)

/-- Error-handling skeleton of `detect_signatures_yolo`: when `_get_model()`
returns None the function returns `[]` before any detection; otherwise the
whole page loop runs inside one try block and any exception makes the
function return `[]`, discarding the detections accepted earlier in the same
call. The function is total: it raises nothing to the caller. -/
def detect_signatures_yolo_run (modelAvailable : Bool)
    (pageResults : List (Except String (List Redaction))) : List Redaction :=
  if modelAvailable = false then []
  else
    match runPages pageResults with
    | Except.ok detected_signatures => detected_signatures
    | Except.error _ => []

/-- Helper: a raised exception on any page makes the page loop abort with an
error. -/
theorem runPages_error_of_mem :
    ∀ (prs : List (Except String (List Redaction))) (e : String),
      Except.error e ∈ prs → ∃ e2, runPages prs = Except.error e2
  | [], e, h => absurd h (List.not_mem_nil _)
  | p :: ps, e, h => by
    cases p with
    | error e1 => exact ⟨e1, rfl⟩
    | ok sigs =>
      have hmem : Except.error e ∈ ps := by
        rcases List.mem_cons.mp h with h1 | h1
        · exact absurd h1 (by simp)
        · exact h1
      obtain ⟨e2, he2⟩ := runPages_error_of_mem ps e hmem
      exact ⟨e2, by simp [runPages, he2]⟩

/-- C9: `detect_signatures_yolo` returns the empty list when the model is
unavailable, and returns the empty list (discarding detections accepted
earlier in the call) when an exception occurs on any page; being a total
function it raises nothing to the caller. -/
theorem detect_errors_return_empty :
    ∀ (modelAvailable : Bool) (pageResults : List (Except String (List Redaction))),
      (modelAvailable = false →
        detect_signatures_yolo_run modelAvailable pageResults = []) ∧
      ((∃ e, Except.error e ∈ pageResults) →
        detect_signatures_yolo_run modelAvailable pageResults = []) := by
  intro avail prs
  constructor
  · intro h
    subst h
    rfl
  · rintro ⟨e, he⟩
    obtain ⟨e2, he2⟩ := runPages_error_of_mem prs e he
    cases avail with
    | false => rfl
    | true => simp [detect_signatures_yolo_run, he2]

/-- Witness for C9: unavailable model with a nonempty result set still
pending, and an available model whose second page raises after a first page
already accepted a detection — both return the empty list. -/
theorem detect_errors_return_empty_witness :
    detect_signatures_yolo_run false [Except.ok [⟨0, 1, 1, 5, 5⟩]] = [] ∧
    detect_signatures_yolo_run true
      [Except.ok [⟨0, 1, 1, 5, 5⟩], Except.error "inference failed"] = [] :=
  ⟨(detect_errors_return_empty false [Except.ok [⟨0, 1, 1, 5, 5⟩]]).1 rfl,
   (detect_errors_return_empty true
      [Except.ok [⟨0, 1, 1, 5, 5⟩], Except.error "inference failed"]).2
     ⟨"inference failed", by simp⟩⟩
